import Mathlib

set_option linter.unusedVariables false

/-!
Shallow embedding of the sv-tools/conf configuration registry
(conf.go, reader.go, parser.go) and proofs about it.
-/

namespace SvConf

/-- Map keys of a raw Go value. Go map keys may be of any type; the flattener
calls reflect Value.String() on them, so only that rendering matters. We model
the two kinds relevant here: keys of string kind and keys of int kind. -/
inductive GoKey where
  | kstr (s : String)
  | kint (n : Int)
deriving DecidableEq

/-- Raw Go interface values handed to the registry by readers or by
Set / SetDefault: nil, booleans, integers, strings, maps and slices. A map is
a list of key / value entries (Go map iteration order is unspecified; the list
order stands for one iteration order), a slice is a list of elements. -/
inductive GoValue where
  | vnil
  | vbool (b : Bool)
  | vint (n : Int)
  | vstr (s : String)
  | vmap (entries : List (GoKey × GoValue))
  | varr (elems : List GoValue)

/-- Go reflect Value.String() applied to a map key: the key itself when the
key is of string kind; for every non-string kind reflect returns a placeholder
built from the type name, for an int key the string "<int Value>". -/
def GoKey.reflectString : GoKey → String
  | .kstr s => s
  | .kint _ => "<int Value>"

/-- The default branch of the scan type switch: neither a map nor a slice. -/
def GoValue.isScalar : GoValue → Bool
  | .vmap _ => false
  | .varr _ => false
  | _ => true

/-- A sync.Map as used for the overrides and the defaults, modelled as an
association list; store keeps keys unique. -/
abbrev Storage := List (String × GoValue)

/-- sync.Map.Store: upsert the value at the key. -/
def Storage.store (st : Storage) (k : String) (v : GoValue) : Storage :=
  (k, v) :: st.filter (fun e => e.1 != k)

/-- sync.Map.Load: the value stored at the key, if present. -/
def Storage.load (st : Storage) (k : String) : Option GoValue :=
  (st.find? (fun e => e.1 == k)).map (fun e => e.2)

/-- sync.Map.Range collecting the keys. -/
def Storage.keysOf (st : Storage) : List String :=
  st.map (fun e => e.1)

mutual
/-- conf.scan: flatten a raw value into the override storage rooted at the
given key. A non-empty key first stores the whole value at that key, and the
recursion then appends a dot; maps recurse per entry with the reflect string
of the entry key appended, slices per element with the decimal index
appended. -/
def scan (data : GoValue) (key : String) (st : Storage) : Storage :=
  let st1 := if key != "" then Storage.store st key data else st
  let key1 := if key != "" then key ++ "." else key
  match data with
  | .vmap entries => scanEntries entries key1 st1
  | .varr elems => scanElems elems key1 0 st1
  | _ => st1

/-- The map branch of conf.scan: recurse into each entry. -/
def scanEntries (entries : List (GoKey × GoValue)) (key : String) (st : Storage) :
    Storage :=
  match entries with
  | [] => st
  | (gk, v) :: rest => scanEntries rest key (scan v (key ++ GoKey.reflectString gk) st)

/-- The slice branch of conf.scan: recurse into each element with its index. -/
def scanElems (elems : List GoValue) (key : String) (i : Nat) (st : Storage) :
    Storage :=
  match elems with
  | [] => st
  | v :: rest => scanElems rest key (i + 1) (scan v (key ++ toString i) st)
end

/-- Go error values arising in this package, compared by identity/equality.
parserFailed and closeFailed stand for the fmt.Errorf wrappings of an inner
error; errMsg stands for any other error value. -/
inductive GoError where
  | noStream
  | noParser
  | parserFailed (inner : GoError)
  | closeFailed (inner : GoError)
  | errMsg (msg : String)
deriving DecidableEq

/-- A Reader: a prefix and the outcome of its Read call (the context argument
is opaque and dropped). -/
structure Reader where
  pfx : String
  readResult : Except GoError GoValue

/-- The two sync.Map fields of the conf struct. -/
structure ConfData where
  storage : Storage
  defaults : Storage

/-- A transformer: (key, current value, registry) to new value. The registry
argument is modelled by its data, which is what a transformer may read. -/
abbrev Transform := String → GoValue → ConfData → GoValue

/-- The conf struct: the two maps plus the registered readers and
transformers. -/
structure Conf where
  data : ConfData
  readers : List Reader
  transformers : List Transform

/-- conf.New. -/
def Conf.new : Conf := ⟨⟨[], []⟩, [], []⟩

/-- conf.Set: upsert into the override storage. -/
def Conf.set (c : Conf) (k : String) (v : GoValue) : Conf :=
  { c with data := { c.data with storage := Storage.store c.data.storage k v } }

/-- conf.SetDefault: upsert into the defaults. -/
def Conf.setDefault (c : Conf) (k : String) (v : GoValue) : Conf :=
  { c with data := { c.data with defaults := Storage.store c.data.defaults k v } }

/-- conf.Reset: swap the override storage for a fresh empty map; the defaults
are untouched. -/
def Conf.reset (c : Conf) : Conf :=
  { c with data := { c.data with storage := [] } }

/-- conf.Keys: the keys of the override storage followed by the keys of the
defaults. -/
def Conf.keys (c : Conf) : List String :=
  Storage.keysOf c.data.storage ++ Storage.keysOf c.data.defaults

/-- The lookup part of conf.Get: overrides first, then defaults, nil when both
miss. -/
def ConfData.lookup (d : ConfData) (k : String) : GoValue :=
  match Storage.load d.storage k with
  | some v => v
  | none =>
    match Storage.load d.defaults k with
    | some v => v
    | none => .vnil

/-- conf.Get: look the key up and run every transformer over the value in
registration order. -/
def Conf.get (c : Conf) (k : String) : GoValue :=
  c.transformers.foldl (fun v tr => tr k v c.data) (ConfData.lookup c.data k)

/-- The reader loop of conf.Load: read and flatten each reader in order,
aborting on the first error. -/
def loadReaders (rs : List Reader) (st : Storage) : Option GoError × Storage :=
  match rs with
  | [] => (none, st)
  | r :: rest =>
    match r.readResult with
    | .error e => (some e, st)
    | .ok d => loadReaders rest (scan d r.pfx st)

/-- conf.Load: reset first, then run the reader loop. -/
def Conf.load (c : Conf) : Option GoError × Conf :=
  let c1 := c.reset
  let res := loadReaders c1.readers c1.data.storage
  (res.1, { c1 with data := { c1.data with storage := res.2 } })

/-- strconv.ParseBool. -/
def parseBool (s : String) : Except Unit Bool :=
  if s = "1" || s = "t" || s = "T" || s = "true" || s = "TRUE" || s = "True" then
    .ok true
  else if s = "0" || s = "f" || s = "F" || s = "false" || s = "FALSE" || s = "False" then
    .ok false
  else .error ()

/-- cast.ToBoolE on the modelled value shapes: booleans and nil succeed,
integers compare against zero, strings go through strconv.ParseBool, any other
shape is an error. -/
def toBoolE : GoValue → Except Unit Bool
  | .vbool b => .ok b
  | .vnil => .ok false
  | .vint n => .ok (decide (n ≠ 0))
  | .vstr s => parseBool s
  | _ => .error ()

/-- The initial contents of the global BoolValues table. -/
def BoolValues : List (String × Bool) :=
  [("yes", true), ("Yes", true), ("y", true), ("Y", true), ("On", true), ("on", true)]

/-- Go map lookup in a BoolValues table: false when the key is absent. -/
def lookupBool (bv : List (String × Bool)) (s : String) : Bool :=
  match bv.find? (fun e => e.1 == s) with
  | some e => e.2
  | none => false

/-- conf.GetBool, with the BoolValues table passed explicitly (it is global
mutable state in the source): primary coercion via cast.ToBoolE, then the
table for string values, then false. -/
def Conf.getBool (bv : List (String × Bool)) (c : Conf) (k : String) : Bool :=
  let value := Conf.get c k
  match toBoolE value with
  | .ok v => v
  | .error _ =>
    match value with
    | .vstr s => lookupBool bv s
    | _ => false

/-- An io.Reader stream handed to the parser adapter: whether it also
implements io.Closer, and the result of Close when it does (some e means
Close fails with e). -/
structure Stream where
  closable : Bool
  closeResult : Option GoError
deriving DecidableEq

/-- A ParseFunc: decode the stream into a raw value or fail. The context
argument is opaque and dropped. -/
abbrev ParseFunc := Stream → Except GoError GoValue

/-- The parser struct of parser.go: an optional stream, an optional parse
function and a prefix. -/
structure ParserAdapter where
  stream : Option Stream
  parseFunc : Option ParseFunc
  pfx : String

/-- parser.Read: a nil stream and a nil parse function are reported as the
sentinel errors; a parse failure is wrapped; after a successful parse a
closable stream is closed and a close failure is returned as a wrapped
error. -/
def ParserAdapter.read (p : ParserAdapter) : Except GoError GoValue :=
  match p.stream with
  | none => .error .noStream
  | some s =>
    match p.parseFunc with
    | none => .error .noParser
    | some f =>
      match f s with
      | .error e => .error (.parserFailed e)
      | .ok d =>
        if s.closable then
          match s.closeResult with
          | some e => .error (.closeFailed e)
          | none => .ok d
        else .ok d

/-- NewStreamParser: construction always succeeds and never inspects the
stream; the parse function starts unset and the prefix empty. -/
def newStreamParser (stream : Option Stream) : ParserAdapter :=
  ⟨stream, none, ""⟩

/-- parser.WithParser. -/
def ParserAdapter.withParseFunc (p : ParserAdapter) (f : ParseFunc) : ParserAdapter :=
  { p with parseFunc := some f }

/-- parser.WithPrefix. -/
def ParserAdapter.withPfx (p : ParserAdapter) (s : String) : ParserAdapter :=
  { p with pfx := s }

/-- The key begins with the given string. -/
def strStartsWith (p k : String) : Prop := ∃ t, k = p ++ t

/-! ### Helper lemmas about the storage -/

theorem load_store_self (st : Storage) (k : String) (v : GoValue) :
    Storage.load (Storage.store st k v) k = some v := by
  simp [Storage.store, Storage.load]

theorem mem_keysOf_store (st : Storage) (k2 : String) (v : GoValue) (k : String)
    (h : k ∈ Storage.keysOf (Storage.store st k2 v)) :
    k = k2 ∨ k ∈ Storage.keysOf st := by
  have h1 : k = k2 ∨ (∃ x, (k, x) ∈ st) ∧ ¬k = k2 := by
    simpa [Storage.store, Storage.keysOf] using h
  rcases h1 with h1 | ⟨⟨x, hx⟩, _⟩
  · exact Or.inl h1
  · exact Or.inr (List.mem_map.mpr ⟨(k, x), hx, rfl⟩)

theorem load_isSome_iff_mem_keysOf (st : Storage) (k : String) :
    (Storage.load st k).isSome = true ↔ k ∈ Storage.keysOf st := by
  simp only [Storage.load, Storage.keysOf, Option.isSome_map']
  rw [List.find?_isSome]
  constructor
  · rintro ⟨e, he, hp⟩
    exact List.mem_map.mpr ⟨e, he, by simpa using hp⟩
  · intro h
    obtain ⟨e, he, rfl⟩ := List.mem_map.mp h
    exact ⟨e, he, by simp⟩

/-! ### Helper lemmas about string prefixes -/

theorem strStartsWith_rfl (p : String) : strStartsWith p p :=
  ⟨"", (String.append_empty p).symm⟩

theorem strStartsWith_empty (k : String) : strStartsWith "" k :=
  ⟨k, (String.empty_append k).symm⟩

theorem strStartsWith_of_append (p s k : String) (h : strStartsWith (p ++ s) k) :
    strStartsWith p k := by
  obtain ⟨t, rfl⟩ := h
  exact ⟨s ++ t, String.append_assoc p s t⟩

theorem startsWith_x_not_y (k : String) (h : strStartsWith "x" k) :
    ¬ strStartsWith "y" k := by
  obtain ⟨t, rfl⟩ := h
  rintro ⟨u, hu⟩
  have hd := congrArg String.data hu
  have h1 : ("x" : String).data = ['x'] := rfl
  have h2 : ("y" : String).data = ['y'] := rfl
  rw [String.data_append, String.data_append, h1, h2] at hd
  injection hd with hc _
  exact absurd hc (by decide)

/-! ### Helper lemmas about scan -/

theorem scan_scalar (v : GoValue) (hv : GoValue.isScalar v = true) (key : String)
    (st : Storage) :
    scan v key st = if key ≠ "" then Storage.store st key v else st := by
  cases v <;> simp_all [scan, GoValue.isScalar]

mutual
theorem scan_keys_mem (d : GoValue) (key : String) (st : Storage) (k : String)
    (h : k ∈ Storage.keysOf (scan d key st)) :
    k ∈ Storage.keysOf st ∨ strStartsWith key k := by
  by_cases hk : key = ""
  · exact Or.inr (hk ▸ strStartsWith_empty k)
  · have hbody :
        scan d key st =
          (match d with
            | .vmap entries => scanEntries entries (key ++ ".") (Storage.store st key d)
            | .varr elems => scanElems elems (key ++ ".") 0 (Storage.store st key d)
            | _ => Storage.store st key d) := by
      cases d <;> simp [scan, hk]
    rw [hbody] at h
    cases d with
    | vmap entries =>
      rcases scanEntries_keys_mem entries (key ++ ".") (Storage.store st key (.vmap entries)) k h with h1 | h1
      · rcases mem_keysOf_store _ _ _ _ h1 with h2 | h2
        · exact Or.inr (h2 ▸ strStartsWith_rfl key)
        · exact Or.inl h2
      · exact Or.inr (strStartsWith_of_append key "." k h1)
    | varr elems =>
      rcases scanElems_keys_mem elems (key ++ ".") 0 (Storage.store st key (.varr elems)) k h with h1 | h1
      · rcases mem_keysOf_store _ _ _ _ h1 with h2 | h2
        · exact Or.inr (h2 ▸ strStartsWith_rfl key)
        · exact Or.inl h2
      · exact Or.inr (strStartsWith_of_append key "." k h1)
    | vnil =>
      rcases mem_keysOf_store _ _ _ _ h with h2 | h2
      · exact Or.inr (h2 ▸ strStartsWith_rfl key)
      · exact Or.inl h2
    | vbool b =>
      rcases mem_keysOf_store _ _ _ _ h with h2 | h2
      · exact Or.inr (h2 ▸ strStartsWith_rfl key)
      · exact Or.inl h2
    | vint n =>
      rcases mem_keysOf_store _ _ _ _ h with h2 | h2
      · exact Or.inr (h2 ▸ strStartsWith_rfl key)
      · exact Or.inl h2
    | vstr s =>
      rcases mem_keysOf_store _ _ _ _ h with h2 | h2
      · exact Or.inr (h2 ▸ strStartsWith_rfl key)
      · exact Or.inl h2

theorem scanEntries_keys_mem (l : List (GoKey × GoValue)) (key : String) (st : Storage)
    (k : String) (h : k ∈ Storage.keysOf (scanEntries l key st)) :
    k ∈ Storage.keysOf st ∨ strStartsWith key k := by
  match l with
  | [] =>
    exact Or.inl (by simpa [scanEntries] using h)
  | (gk, v) :: rest =>
    rw [show scanEntries ((gk, v) :: rest) key st =
        scanEntries rest key (scan v (key ++ GoKey.reflectString gk) st) from rfl] at h
    rcases scanEntries_keys_mem rest key (scan v (key ++ GoKey.reflectString gk) st) k h with h1 | h1
    · rcases scan_keys_mem v (key ++ GoKey.reflectString gk) st k h1 with h2 | h2
      · exact Or.inl h2
      · exact Or.inr (strStartsWith_of_append key (GoKey.reflectString gk) k h2)
    · exact Or.inr h1

theorem scanElems_keys_mem (l : List GoValue) (key : String) (i : Nat) (st : Storage)
    (k : String) (h : k ∈ Storage.keysOf (scanElems l key i st)) :
    k ∈ Storage.keysOf st ∨ strStartsWith key k := by
  match l with
  | [] =>
    exact Or.inl (by simpa [scanElems] using h)
  | v :: rest =>
    rw [show scanElems (v :: rest) key i st =
        scanElems rest key (i + 1) (scan v (key ++ toString i) st) from rfl] at h
    rcases scanElems_keys_mem rest key (i + 1) (scan v (key ++ toString i) st) k h with h1 | h1
    · rcases scan_keys_mem v (key ++ toString i) st k h1 with h2 | h2
      · exact Or.inl h2
      · exact Or.inr (strStartsWith_of_append key (toString i) k h2)
    · exact Or.inr h1
end

theorem append_ne_empty_left (a b : String) (ha : a ≠ "") : a ++ b ≠ "" := by
  intro h
  apply ha
  have hd := congrArg String.data h
  rw [String.data_append] at hd
  have h0 : ("" : String).data = [] := rfl
  rw [h0] at hd
  have h1 : a.data = [] := (List.append_eq_nil.mp hd).1
  cases a
  simp_all

/-! ### Concrete fixtures -/

/-- The nested raw value of the flattening round-trip example: a map sending
"a" to a map sending "b" to a two-element slice of one-entry maps. -/
def nestedRaw : GoValue :=
  .vmap [(.kstr "a", .vmap [(.kstr "b",
    .varr [.vmap [(.kstr "c", .vint 1)], .vmap [(.kstr "d", .vint 2)]])])]

/-- A transformer that rewrites every value to nil. -/
def nilTransform : Transform := fun _ _ _ => .vnil

/-- A registry with a stale override and a default, whose single reader
supplies the nested example value with an empty prefix. -/
def c1conf : Conf :=
  ⟨⟨[("old", .vint 9)], [("d", .vint 5)]⟩, [⟨"", .ok nestedRaw⟩], []⟩

/-! ### C1 -/

/-- C1, counterexample: the claim quantifies over every registry, but a
registry may carry transformers and Get runs them over every result; with a
transformer that rewrites every value to nil, loading the nested example
yields Get "a.b.0.c" = nil, not 1. -/
theorem C1_counterexample :
    Conf.get (Conf.load ⟨⟨[], []⟩, [⟨"", .ok nestedRaw⟩], [nilTransform]⟩).2 "a.b.0.c"
      ≠ GoValue.vint 1 := by
  have h0 :
      Conf.get (Conf.load ⟨⟨[], []⟩, [⟨"", .ok nestedRaw⟩], [nilTransform]⟩).2 "a.b.0.c"
        = GoValue.vnil := rfl
  rw [h0]
  intro h
  exact GoValue.noConfusion h

/-- C1 (amended): for every registry with no transformers registered whose
reader list is exactly the one reader returning the nested structure with an
empty prefix, Load makes Get "a.b.0.c" return 1, Get "a.b.1.d" return 2, and
Get of "a", "a.b", "a.b.0" and "a.b.1" return each composite whole and
unchanged: every composite is stored whole at its own dotted path and
expanded into child keys beneath it. -/
theorem C1_flatten_roundtrip (c : Conf)
    (hr : c.readers = [⟨"", .ok nestedRaw⟩])
    (ht : c.transformers = []) :
    Conf.get (Conf.load c).2 "a.b.0.c" = .vint 1 ∧
    Conf.get (Conf.load c).2 "a.b.1.d" = .vint 2 ∧
    Conf.get (Conf.load c).2 "a" =
      .vmap [(.kstr "b", .varr [.vmap [(.kstr "c", .vint 1)], .vmap [(.kstr "d", .vint 2)]])] ∧
    Conf.get (Conf.load c).2 "a.b" =
      .varr [.vmap [(.kstr "c", .vint 1)], .vmap [(.kstr "d", .vint 2)]] ∧
    Conf.get (Conf.load c).2 "a.b.0" = .vmap [(.kstr "c", .vint 1)] ∧
    Conf.get (Conf.load c).2 "a.b.1" = .vmap [(.kstr "d", .vint 2)] := by
  obtain ⟨⟨st, df⟩, rs, ts⟩ := c
  subst hr ht
  exact ⟨rfl, rfl, rfl, rfl, rfl, rfl⟩

/-- Witness for C1: the amended theorem applied to a concrete registry that
starts with a stale override and one default. -/
theorem C1_flatten_roundtrip_witness :
    c1conf.readers = [⟨"", .ok nestedRaw⟩] ∧ c1conf.transformers = [] ∧
    Conf.get (Conf.load c1conf).2 "a.b.0.c" = .vint 1 ∧
    Conf.get (Conf.load c1conf).2 "a" =
      .vmap [(.kstr "b", .varr [.vmap [(.kstr "c", .vint 1)], .vmap [(.kstr "d", .vint 2)]])] :=
  ⟨rfl, rfl, (C1_flatten_roundtrip c1conf rfl rfl).1,
    (C1_flatten_roundtrip c1conf rfl rfl).2.2.1⟩

/-! ### C2 -/

/-- C2: with readers R1 (succeeds, prefix "x"), R2 (fails with E), R3
(succeeds, prefix "y"), Load resets the overrides, returns E unchanged, the
resulting storage is exactly R1's flattening under "x" (so R1's keys are
present and R3 — arbitrary here, hence never read — contributes nothing), and
no key under "y" exists. -/
theorem C2_load_abort (c : Conf) (r1 r2 r3 : Reader) (d1 : GoValue) (e : GoError)
    (hr : c.readers = [r1, r2, r3])
    (h1p : r1.pfx = "x") (h1d : r1.readResult = .ok d1)
    (h2 : r2.readResult = .error e)
    (h3p : r3.pfx = "y") :
    (Conf.load c).1 = some e ∧
    (Conf.load c).2.data.storage = scan d1 "x" [] ∧
    (∀ k, k ∈ Storage.keysOf (Conf.load c).2.data.storage → strStartsWith "x" k) ∧
    (∀ k, k ∈ Storage.keysOf (Conf.load c).2.data.storage → ¬ strStartsWith "y" k) := by
  obtain ⟨⟨st, df⟩, rs, ts⟩ := c
  obtain ⟨p1, res1⟩ := r1
  obtain ⟨p2, res2⟩ := r2
  subst hr h1p h1d h2
  have hx : ∀ k, k ∈ Storage.keysOf (scan d1 "x" []) → strStartsWith "x" k := by
    intro k hk
    rcases scan_keys_mem d1 "x" [] k hk with h | h
    · simp [Storage.keysOf] at h
    · exact h
  exact ⟨rfl, rfl, hx, fun k hk => startsWith_x_not_y k (hx k hk)⟩

/-- A reader that succeeds with a string value under prefix "x". -/
def c2r1 : Reader := ⟨"x", .ok (.vstr "v")⟩

/-- A reader that fails. -/
def c2r2 : Reader := ⟨"", .error (.errMsg "E")⟩

/-- A reader that would succeed under prefix "y". -/
def c2r3 : Reader := ⟨"y", .ok (.vint 3)⟩

/-- A registry with a stale override and the three readers of C2. -/
def c2conf : Conf := ⟨⟨[("stale", .vint 0)], []⟩, [c2r1, c2r2, c2r3], []⟩

/-- Witness for C2: the theorem applied to a concrete registry. -/
theorem C2_load_abort_witness :
    c2conf.readers = [c2r1, c2r2, c2r3] ∧ c2r1.pfx = "x" ∧
    c2r1.readResult = .ok (.vstr "v") ∧ c2r2.readResult = .error (.errMsg "E") ∧
    c2r3.pfx = "y" ∧
    ((Conf.load c2conf).1 = some (.errMsg "E") ∧
      (Conf.load c2conf).2.data.storage = scan (.vstr "v") "x" [] ∧
      (∀ k, k ∈ Storage.keysOf (Conf.load c2conf).2.data.storage → strStartsWith "x" k) ∧
      (∀ k, k ∈ Storage.keysOf (Conf.load c2conf).2.data.storage → ¬ strStartsWith "y" k)) :=
  ⟨rfl, rfl, rfl, rfl, rfl,
    C2_load_abort c2conf c2r1 c2r2 c2r3 (.vstr "v") (.errMsg "E") rfl rfl rfl rfl rfl⟩

/-! ### C3 -/

/-- C3: with no transformers, Get of a key absent from both maps is nil; Set
then Get returns the value unchanged; SetDefault then Get returns the default
when no override exists; and an existing override always wins over an
existing default. -/
theorem C3_get_set_default (c : Conf) (k : String) (v w : GoValue)
    (ht : c.transformers = []) :
    (Storage.load c.data.storage k = none → Storage.load c.data.defaults k = none →
      Conf.get c k = .vnil) ∧
    (Conf.get (Conf.set c k v) k = v) ∧
    (Storage.load c.data.storage k = none → Conf.get (Conf.setDefault c k v) k = v) ∧
    (Storage.load c.data.storage k = some v → Storage.load c.data.defaults k = some w →
      Conf.get c k = v) := by
  obtain ⟨⟨st, df⟩, rs, ts⟩ := c
  subst ht
  refine ⟨?_, ?_, ?_, ?_⟩
  · intro hs hd
    simp only [Conf.get, List.foldl_nil, ConfData.lookup] at *
    rw [hs, hd]
  · simp only [Conf.get, Conf.set, List.foldl_nil, ConfData.lookup]
    rw [load_store_self]
  · intro hs
    simp only [Conf.get, Conf.setDefault, List.foldl_nil, ConfData.lookup] at *
    rw [hs, load_store_self]
  · intro hs hd
    simp only [Conf.get, List.foldl_nil, ConfData.lookup] at *
    rw [hs]

/-- Witness for C3: the theorem applied to a registry holding an override and
a default under the same key. -/
theorem C3_get_set_default_witness :
    (⟨⟨[("k", .vint 1)], [("k", .vint 2)]⟩, [], []⟩ : Conf).transformers = [] ∧
    (Storage.load (⟨⟨[("k", .vint 1)], [("k", .vint 2)]⟩, [], []⟩ : Conf).data.storage "k"
        = some (.vint 1) →
      Storage.load (⟨⟨[("k", .vint 1)], [("k", .vint 2)]⟩, [], []⟩ : Conf).data.defaults "k"
        = some (.vint 2) →
      Conf.get (⟨⟨[("k", .vint 1)], [("k", .vint 2)]⟩, [], []⟩ : Conf) "k" = .vint 1) ∧
    Conf.get (Conf.set (⟨⟨[("k", .vint 1)], [("k", .vint 2)]⟩, [], []⟩ : Conf) "k" (.vint 1)) "k"
      = .vint 1 :=
  ⟨rfl,
    (C3_get_set_default ⟨⟨[("k", .vint 1)], [("k", .vint 2)]⟩, [], []⟩ "k"
      (.vint 1) (.vint 2) rfl).2.2.2,
    (C3_get_set_default ⟨⟨[("k", .vint 1)], [("k", .vint 2)]⟩, [], []⟩ "k"
      (.vint 1) (.vint 2) rfl).2.1⟩

/-! ### C4 -/

/-- C4: Reset empties the overrides — every key misses the new override map —
while the defaults mapping is exactly the one from before; a subsequent Get
(without transformers) falls back to the default or is nil. -/
theorem C4_reset (c : Conf) :
    ((Conf.reset c).data.storage = []) ∧
    (∀ k, Storage.load (Conf.reset c).data.storage k = none) ∧
    ((Conf.reset c).data.defaults = c.data.defaults) ∧
    (∀ k, c.transformers = [] →
      Conf.get (Conf.reset c) k = (Storage.load c.data.defaults k).getD .vnil) := by
  refine ⟨rfl, fun k => rfl, rfl, ?_⟩
  intro k ht
  obtain ⟨⟨st, df⟩, rs, ts⟩ := c
  subst ht
  have h0 : Storage.load ([] : Storage) k = none := rfl
  cases hdl : Storage.load df k <;>
    simp [Conf.get, Conf.reset, ConfData.lookup, h0, hdl]

/-- Witness for C4: a registry with one override and one default; after Reset
the override is gone and Get falls back to the default. -/
theorem C4_reset_witness :
    (⟨⟨[("k", .vint 1)], [("k", .vint 2)]⟩, [], []⟩ : Conf).transformers = [] ∧
    Conf.get (Conf.reset (⟨⟨[("k", .vint 1)], [("k", .vint 2)]⟩, [], []⟩ : Conf)) "k"
      = (Storage.load (⟨⟨[("k", .vint 1)], [("k", .vint 2)]⟩, [], []⟩ : Conf).data.defaults
          "k").getD .vnil :=
  ⟨rfl, (C4_reset ⟨⟨[("k", .vint 1)], [("k", .vint 2)]⟩, [], []⟩).2.2.2 "k" rfl⟩

/-! ### C5 -/

/-- C5, counterexample: the flattener renders a map entry key via reflect
Value.String(), which for an int key 7 yields the placeholder "<int Value>",
not "7"; scanning the one-entry map with int key 7 under base "q" stores
nothing at "q.7". -/
theorem C5_counterexample :
    Storage.load (scan (.vmap [(.kint 7, .vint 1)]) "q" []) "q.7" = none ∧
    Storage.load (scan (.vmap [(.kint 7, .vint 1)]) "q" []) "q.<int Value>"
      = some (.vint 1) :=
  ⟨rfl, rfl⟩

/-- C5 (amended): each map entry is recursed into under base ++ "." ++ s
(the dot-join omitted when base is empty), where s is the reflect
Value.String() rendering of the entry key: the key itself for a key of string
kind, the placeholder "<int Value>" for an int key; sequence indices are
rendered as base-10 integers. -/
theorem C5_map_child_key (base : String) (hb : base ≠ "") (gk : GoKey) (n : Int)
    (st : Storage) :
    Storage.load (scan (.vmap [(gk, .vint n)]) base st)
      (base ++ "." ++ GoKey.reflectString gk) = some (.vint n) ∧
    (GoKey.reflectString gk ≠ "" →
      Storage.load (scan (.vmap [(gk, .vint n)]) "" st) (GoKey.reflectString gk)
        = some (.vint n)) ∧
    (∀ s, GoKey.reflectString (.kstr s) = s) ∧
    (∀ m : Int, GoKey.reflectString (.kint m) = "<int Value>") := by
  refine ⟨?_, ?_, fun s => rfl, fun m => rfl⟩
  · have h1 : scan (.vmap [(gk, .vint n)]) base st =
        scan (.vint n) (base ++ "." ++ GoKey.reflectString gk)
          (Storage.store st base (.vmap [(gk, .vint n)])) := by
      simp [scan, scanEntries, hb]
    rw [h1, scan_scalar (.vint n) rfl _ _,
      if_pos (append_ne_empty_left _ _ (append_ne_empty_left _ _ hb))]
    exact load_store_self _ _ _
  · intro hrs
    have h1 : scan (.vmap [(gk, .vint n)]) "" st =
        scan (.vint n) (GoKey.reflectString gk) st := by
      simp [scan, scanEntries]
    rw [h1, scan_scalar (.vint n) rfl _ _, if_pos hrs]
    exact load_store_self _ _ _

/-- Witness for C5: the amended theorem at base "q" with the int key 7. -/
theorem C5_map_child_key_witness :
    ("q" : String) ≠ "" ∧
    Storage.load (scan (.vmap [(.kint 7, .vint 1)]) "q" [])
      ("q" ++ "." ++ GoKey.reflectString (.kint 7)) = some (.vint 1) ∧
    GoKey.reflectString (.kint 7) = "<int Value>" :=
  ⟨by decide,
    (C5_map_child_key "q" (by decide) (.kint 7) 1 []).1,
    (C5_map_child_key "q" (by decide) (.kint 7) 1 []).2.2.2 7⟩

/-! ### C6 -/

/-- C6, counterexample: Keys ranges over the override storage and then over
the defaults, appending both; a key present in both mappings appears twice in
the returned list, not once. -/
theorem C6_counterexample :
    Conf.keys (Conf.setDefault (Conf.set Conf.new "k" (.vint 1)) "k" (.vint 2))
      = ["k", "k"] ∧
    List.count "k"
      (Conf.keys (Conf.setDefault (Conf.set Conf.new "k" (.vint 1)) "k" (.vint 2)))
      = 2 :=
  ⟨rfl, rfl⟩

/-- C6 (amended): as a set, Keys is exactly the union of the override keys
and the default keys — a key is in the returned list iff it is present in at
least one of the two mappings — but a key occurs in the list once per mapping
containing it, so a key present in both appears twice. -/
theorem C6_keys_union (c : Conf) (k : String) :
    (k ∈ Conf.keys c ↔ ((Storage.load c.data.storage k).isSome = true ∨
      (Storage.load c.data.defaults k).isSome = true)) ∧
    List.count k (Conf.keys c) =
      List.count k (Storage.keysOf c.data.storage)
        + List.count k (Storage.keysOf c.data.defaults) := by
  constructor
  · rw [Conf.keys, List.mem_append, load_isSome_iff_mem_keysOf,
      load_isSome_iff_mem_keysOf]
  · rw [Conf.keys, List.count_append]

/-! ### C7 -/

/-- A registry holding exactly one override, the value v at key "k". -/
def confHolding (v : GoValue) : Conf := ⟨⟨[("k", v)], []⟩, [], []⟩

theorem get_confHolding (v : GoValue) : Conf.get (confHolding v) "k" = v := rfl

/-- C7, counterexample: adding the token "false" to BoolValues does not make
GetBool of a key holding exactly "false" return true — the primary coercion
(cast.ToBoolE via strconv.ParseBool) succeeds with false first, so the table
is never consulted. -/
theorem C7_counterexample :
    Conf.getBool (("false", true) :: BoolValues) (confHolding (.vstr "false")) "k"
      = false := rfl

/-- C7 (amended): GetBool is true for "yes", "Yes", 1 and true and false for
"no", 0, false, "", unrecognized strings and an absent key; adding a string
token ON WHICH THE PRIMARY COERCION FAILS to BoolValues makes a subsequent
GetBool of a key holding exactly that string return true; the table is
consulted only when the primary coercion fails and the value is a string. -/
theorem C7_bool_coercion (t : String) (ht : parseBool t = .error ()) :
    Conf.getBool BoolValues (confHolding (.vstr "yes")) "k" = true ∧
    Conf.getBool BoolValues (confHolding (.vstr "Yes")) "k" = true ∧
    Conf.getBool BoolValues (confHolding (.vint 1)) "k" = true ∧
    Conf.getBool BoolValues (confHolding (.vbool true)) "k" = true ∧
    Conf.getBool BoolValues (confHolding (.vstr "no")) "k" = false ∧
    Conf.getBool BoolValues (confHolding (.vint 0)) "k" = false ∧
    Conf.getBool BoolValues (confHolding (.vbool false)) "k" = false ∧
    Conf.getBool BoolValues (confHolding (.vstr "")) "k" = false ∧
    Conf.getBool BoolValues Conf.new "k" = false ∧
    (∀ s, parseBool s = .error () → lookupBool BoolValues s = false →
      Conf.getBool BoolValues (confHolding (.vstr s)) "k" = false) ∧
    Conf.getBool ((t, true) :: BoolValues) (confHolding (.vstr t)) "k" = true ∧
    (∀ bv v b, toBoolE v = .ok b → Conf.getBool bv (confHolding v) "k" = b) ∧
    (∀ bv (entries : List (GoKey × GoValue)),
      Conf.getBool bv (confHolding (.vmap entries)) "k" = false) := by
  refine ⟨rfl, rfl, rfl, rfl, rfl, rfl, rfl, rfl, rfl, ?_, ?_, ?_, ?_⟩
  · intro s h1 h2
    simp [Conf.getBool, get_confHolding, toBoolE, h1, h2]
  · simp [Conf.getBool, get_confHolding, toBoolE, ht, lookupBool]
  · intro bv v b hb
    simp [Conf.getBool, get_confHolding, hb]
  · intro bv entries
    simp [Conf.getBool, get_confHolding, toBoolE]

/-- Witness for C7: the amended theorem at the token "si", which the primary
coercion rejects. -/
theorem C7_bool_coercion_witness :
    parseBool "si" = .error () ∧
    Conf.getBool (("si", true) :: BoolValues) (confHolding (.vstr "si")) "k" = true ∧
    Conf.getBool BoolValues (confHolding (.vstr "yes")) "k" = true :=
  ⟨rfl, (C7_bool_coercion "si" rfl).2.2.2.2.2.2.2.2.2.2.1,
    (C7_bool_coercion "si" rfl).1⟩

/-! ### C8 -/

/-- C8: flattening a scalar with a non-empty prefix p stores exactly the one
key p (load finds the scalar there, and a Load through a reader with prefix p
leaves the storage exactly [(p, scalar)], Keys gaining only p); flattening a
scalar with an empty prefix stores nothing at all. -/
theorem C8_scalar_flatten (v : GoValue) (hv : GoValue.isScalar v = true) (p : String)
    (hp : p ≠ "") (st : Storage) (c : Conf)
    (hr : c.readers = [⟨p, .ok v⟩]) (ht : c.transformers = []) :
    scan v p st = Storage.store st p v ∧
    scan v "" st = st ∧
    (Conf.load c).2.data.storage = [(p, v)] ∧
    Conf.get (Conf.load c).2 p = v ∧
    Storage.keysOf (Conf.load c).2.data.storage = [p] ∧
    (∀ c2 : Conf, c2.readers = [⟨"", .ok v⟩] →
      (Conf.load c2).2.data.storage = []) := by
  have hscan : scan v p st = Storage.store st p v := by
    rw [scan_scalar v hv p st, if_pos hp]
  have hscan0 : ∀ st0 : Storage, scan v "" st0 = st0 := fun st0 => by
    rw [scan_scalar v hv "" st0, if_neg (by simp)]
  have hstore : ∀ p0, Storage.store ([] : Storage) p0 v = [(p0, v)] := fun p0 => rfl
  obtain ⟨⟨st0, df⟩, rs, ts⟩ := c
  subst hr ht
  have hsc : scan v p [] = [(p, v)] := by
    rw [scan_scalar v hv p [], if_pos hp]
    exact hstore p
  refine ⟨hscan, hscan0 st, hsc, ?_, ?_, ?_⟩
  · show Conf.get ⟨⟨scan v p [], df⟩, [⟨p, .ok v⟩], []⟩ p = v
    rw [hsc]
    simp [Conf.get, ConfData.lookup, Storage.load]
  · show Storage.keysOf (scan v p []) = [p]
    rw [hsc]
    rfl
  · intro c2 hr2
    obtain ⟨⟨st2, df2⟩, rs2, ts2⟩ := c2
    subst hr2
    show scan v "" [] = []
    exact hscan0 []

/-- Witness for C8: the theorem at the scalar "scalar" with prefix "p" and a
registry that starts with a stale override. -/
theorem C8_scalar_flatten_witness :
    GoValue.isScalar (.vstr "scalar") = true ∧ ("p" : String) ≠ "" ∧
    (⟨⟨[("z", .vnil)], []⟩, [⟨"p", .ok (.vstr "scalar")⟩], []⟩ : Conf).readers
      = [⟨"p", .ok (.vstr "scalar")⟩] ∧
    (⟨⟨[("z", .vnil)], []⟩, [⟨"p", .ok (.vstr "scalar")⟩], []⟩ : Conf).transformers = [] ∧
    Conf.get
      (Conf.load (⟨⟨[("z", .vnil)], []⟩, [⟨"p", .ok (.vstr "scalar")⟩], []⟩ : Conf)).2 "p"
      = .vstr "scalar" ∧
    Storage.keysOf
      (Conf.load (⟨⟨[("z", .vnil)], []⟩, [⟨"p", .ok (.vstr "scalar")⟩], []⟩ : Conf)).2.data.storage
      = ["p"] :=
  ⟨rfl, by decide, rfl, rfl,
    (C8_scalar_flatten (.vstr "scalar") rfl "p" (by decide) []
      ⟨⟨[("z", .vnil)], []⟩, [⟨"p", .ok (.vstr "scalar")⟩], []⟩ rfl rfl).2.2.2.1,
    (C8_scalar_flatten (.vstr "scalar") rfl "p" (by decide) []
      ⟨⟨[("z", .vnil)], []⟩, [⟨"p", .ok (.vstr "scalar")⟩], []⟩ rfl rfl).2.2.2.2.1⟩

/-! ### C9 -/

/-- C9: the parser adapter reports a missing stream as the sentinel
ErrNoStream and a missing parse function as the distinct sentinel ErrNoParser,
both from Read (construction via NewStreamParser is total and defers the
checks); after a successful parse of a closable stream, a close failure is
returned as an error from Read. -/
theorem C9_parser_adapter (s : Stream) (f : ParseFunc) (d : GoValue) (e : GoError)
    (hparse : f s = .ok d) (hclose : s.closable = true)
    (hfail : s.closeResult = some e) :
    (∀ pf px, ParserAdapter.read ⟨none, pf, px⟩ = .error .noStream) ∧
    (∀ st px, ParserAdapter.read ⟨some st, none, px⟩ = .error .noParser) ∧
    GoError.noStream ≠ GoError.noParser ∧
    ParserAdapter.read (newStreamParser none) = .error .noStream ∧
    (∀ px, ParserAdapter.read ⟨some s, some f, px⟩ = .error (.closeFailed e)) ∧
    ParserAdapter.read (ParserAdapter.withParseFunc (newStreamParser (some s)) f)
      = .error (.closeFailed e) := by
  have hread : ∀ px, ParserAdapter.read ⟨some s, some f, px⟩ = .error (.closeFailed e) := by
    intro px
    simp [ParserAdapter.read, hparse, hclose, hfail]
  refine ⟨fun pf px => rfl, fun st px => rfl, by decide, rfl, hread, ?_⟩
  exact hread ""

/-- Witness for C9: a closable stream whose Close fails, with a parse
function that succeeds on it. -/
theorem C9_parser_adapter_witness :
    (fun _ : Stream => (.ok .vnil : Except GoError GoValue)) ⟨true, some (.errMsg "boom")⟩
      = .ok .vnil ∧
    (⟨true, some (.errMsg "boom")⟩ : Stream).closable = true ∧
    (⟨true, some (.errMsg "boom")⟩ : Stream).closeResult = some (.errMsg "boom") ∧
    ParserAdapter.read (newStreamParser none) = .error .noStream ∧
    ParserAdapter.read
      ⟨some ⟨true, some (.errMsg "boom")⟩, some (fun _ => .ok .vnil), ""⟩
      = .error (.closeFailed (.errMsg "boom")) :=
  ⟨rfl, rfl, rfl,
    (C9_parser_adapter ⟨true, some (.errMsg "boom")⟩ (fun _ => .ok .vnil) .vnil
      (.errMsg "boom") rfl rfl rfl).2.2.2.1,
    (C9_parser_adapter ⟨true, some (.errMsg "boom")⟩ (fun _ => .ok .vnil) .vnil
      (.errMsg "boom") rfl rfl rfl).2.2.2.2.1 ""⟩

/-! ### C10 -/

/-- A transformer that rewrites every value to a fixed string. -/
def constTransform : Transform := fun _ _ _ => .vstr "t"

/-- A registry with one transformer and nothing stored. -/
def confT : Conf := ⟨⟨[], []⟩, [], [constTransform]⟩

/-- C10: for a key absent from both maps, Get still folds every transformer
in registration order over the initial value nil and returns the chain's
output, which can be non-nil — so Get of a missing key is nil only when no
transformers are registered. -/
theorem C10_transforms_on_missing (c : Conf) (k : String)
    (h1 : Storage.load c.data.storage k = none)
    (h2 : Storage.load c.data.defaults k = none) :
    Conf.get c k = c.transformers.foldl (fun v tr => tr k v c.data) GoValue.vnil ∧
    (∃ c2 : Conf, ∃ k2 : String,
      Storage.load c2.data.storage k2 = none ∧
      Storage.load c2.data.defaults k2 = none ∧
      c2.transformers ≠ [] ∧ Conf.get c2 k2 ≠ .vnil) := by
  constructor
  · rw [Conf.get, ConfData.lookup, h1, h2]
  · refine ⟨confT, "k", rfl, rfl, by simp [confT], ?_⟩
    have h0 : Conf.get confT "k" = .vstr "t" := rfl
    rw [h0]
    intro h
    exact GoValue.noConfusion h

/-- Witness for C10: the theorem at the registry with one constant
transformer and an absent key. -/
theorem C10_transforms_on_missing_witness :
    Storage.load confT.data.storage "k" = none ∧
    Storage.load confT.data.defaults "k" = none ∧
    (Conf.get confT "k" = confT.transformers.foldl
      (fun v tr => tr "k" v confT.data) GoValue.vnil ∧
    (∃ c2 : Conf, ∃ k2 : String,
      Storage.load c2.data.storage k2 = none ∧
      Storage.load c2.data.defaults k2 = none ∧
      c2.transformers ≠ [] ∧ Conf.get c2 k2 ≠ .vnil)) :=
  ⟨rfl, rfl, C10_transforms_on_missing confT "k" rfl rfl⟩

end SvConf
